import Mathlib

/-!
Verification of the user-claims normalization core (pkg/user/user.go).

The Go code is shallowly embedded: the dynamic `interface\x7b\x7d` values that
arrive from a decoded JSON payload are modelled by the inductive type Value,
Go maps are modelled by association lists with replace-or-append assignment,
and every fallible Go function returns Except Err.  NewUser is written as the
same top-to-bottom sequence of per-field blocks as the source, each block a
small step function on the normalization state.
-/

set_option maxHeartbeats 1000000

namespace UserClaims

/-- Dynamic value, mirroring the Go interface values produced by decoding a
token payload.  The constructors int, int64, float and jsonNumber mirror the
distinct Go dynamic types int, int64, float64 and json.Number that the type
switches of the source distinguish; all are carried as integers here because
no verified claim depends on fractional float values, only on which switch
arm a value selects. -/
inductive Value where
  | str (s : String)
  | int (n : Int)
  | int64 (n : Int)
  | float (n : Int)
  | jsonNumber (n : Int)
  | bool (b : Bool)
  | null
  | list (vs : List Value)
  | strList (ss : List String)
  | obj (fields : List (String × Value))
deriving Repr

/-- A Go map[string]interface value, modelled as an association list. -/
abbrev Dict := List (String × Value)

/-- Go map read: first binding of the key wins (Go maps bind each key once). -/
def lookupKV : Dict → String → Option Value
  | [], _ => none
  | (k', v) :: rest, k => if k' = k then some v else lookupKV rest k

/-- Go map write: replace the binding if present, otherwise append. -/
def mapSet : Dict → String → Value → Dict
  | [], k, v => [(k, v)]
  | (k', v') :: rest, k, v =>
      if k' = k then (k, v) :: rest else (k', v') :: mapSet rest k v

/-- The error values of the source, one constructor per errors-package
constant used in user.go, carrying the WithArgs arguments. -/
inductive Err where
  | errInvalidUserDataType
  | errInvalidAudience (v : Value)
  | errInvalidAudienceType (v : Value)
  | errInvalidClaimExpiresAt (v : Value)
  | errInvalidIDClaimType (v : Value)
  | errInvalidClaimIssuedAt (v : Value)
  | errInvalidIssuerClaimType (v : Value)
  | errInvalidClaimNotBefore (v : Value)
  | errInvalidSubjectClaimType (v : Value)
  | errInvalidEmailClaimType (k : String) (v : Value)
  | errInvalidNameClaimType (v : Value)
  | errInvalidRole (v : Value)
  | errInvalidRoleType (v : Value)
  | errInvalidAppMetadataRoleType (v : Value)
  | errInvalidScope (v : Value)
  | errInvalidScopeType (v : Value)
  | errInvalidAccessListPath (v : Value)
  | errInvalidOriginClaimType (v : Value)
  | errInvalidOrg (v : Value)
  | errInvalidOrgType (v : Value)
  | errInvalidAddrType (v : Value)
  | errInvalidPictureClaimType (v : Value)
  | errInvalidMetadataClaimType (v : Value)
  | errExpiredToken
  | errFrontendLinkInvalidType (v : Value)
  | errCheckpointInvalidType (v : Value)
  | errCheckpointInvalidInput (entry : String) (inner : Err)
  | errCheckpointEmpty
  | errMustContainTwoKeywords
  | errUnsupportedRequireKeyword (s : String)
  | errUnsupportedKeyword (s : String)
deriving Repr

/-- Claims mirrors the Claims struct of the source.  AccessList (a pointer to
a struct holding one map whose values are always empty maps) is modelled by
the ordered key set of that map: none is the nil pointer, some ps the map
with key set ps. -/
structure Claims where
  audience : List String := []
  expiresAt : Int := 0
  id : String := ""
  issuedAt : Int := 0
  issuer : String := ""
  notBefore : Int := 0
  subject : String := ""
  name : String := ""
  email : String := ""
  roles : List String := []
  origin : String := ""
  scopes : List String := []
  organizations : List String := []
  aclPaths : Option (List String) := none
  address : String := ""
  pictureURL : String := ""
  metadata : Option (List (String × Value)) := none
  username : String := ""
deriving Repr

/-- Checkpoint mirrors the Checkpoint struct of the source. -/
structure Checkpoint where
  id : Int := 0
  name : String := ""
  type : String := ""
  parameters : String := ""
  passed : Bool := false
  failedAttempts : Int := 0
deriving Repr

/-- The fields of the User aggregate that the verified claims concern: the
claims record, the two projections mkv (full) and tkv (reduced), the role
index rkv (a Go map from role name to true, modelled by its key list), and
the frontend link list.  The remaining Go fields (token metadata, flags,
checkpoints, request side-channel maps) are independent pass-through data. -/
structure User where
  claims : Claims
  mkv : Dict
  tkv : Dict
  rkv : List String
  frontendLinks : List String
deriving Repr

/-- Normalization state threaded through NewUser: the claims record under
construction and the two projections. -/
structure Norm where
  c : Claims
  mkv : Dict
  tkv : Dict

/-- Valid from the source: fails with the expired-token error when the
expiration timestamp is strictly below the current Unix time, which is
passed explicitly here in place of time.Now().Unix(). -/
def Claims.Valid (c : Claims) (now : Int) : Option Err :=
  if c.expiresAt < now then some Err.errExpiredToken else none

/-- AsMap returns the full projection. -/
def User.AsMap (u : User) : Dict := u.mkv

/-- GetData returns the reduced projection used for ACL evaluation. -/
def User.GetData (u : User) : Dict := u.tkv

/-- HasRole: true when at least one queried role is in the role index. -/
def User.HasRole (u : User) (roles : List String) : Bool :=
  roles.any (fun r => u.rkv.contains r)

/-- HasRoles: true when every queried role is in the role index. -/
def User.HasRoles (u : User) (roles : List String) : Bool :=
  roles.all (fun r => u.rkv.contains r)

/-- Splitting on single spaces as Go strings.Split does with a one-space
separator: the string is cut around every space, so the empty string yields
the one-element list holding the empty string, and adjacent spaces yield
empty fields.  Defined by structural recursion over the character list. -/
def splitSpaceAux : List Char → List Char → List String
  | [], cur => [String.mk cur.reverse]
  | ch :: rest, cur =>
      if ch = ' ' then String.mk cur.reverse :: splitSpaceAux rest []
      else splitSpaceAux rest (ch :: cur)

/-- Go strings.Split with a single-space separator. -/
def splitSpace (s : String) : List String :=
  splitSpaceAux s.data []

/-- Element-wise validation of a generic list whose elements must all be
strings, failing with the given element error on the first non-string, as in
the for-range loops of the source. -/
def parseStrs (elemErr : Value → Err) : List Value → Except Err (List String)
  | [] => .ok []
  | .str s :: rest => (parseStrs elemErr rest).map (fun r => s :: r)
  | v :: _ => .error (elemErr v)

/-- The shared aggregate-value switch of the roles, scopes and org blocks:
a generic list is validated element-wise, a string list is taken as is, and
a plain string is split on single spaces; any other shape fails with the
aggregate type error carrying the offending value. -/
def aggFromValue (elemErr typeErr : Value → Err) : Value → Except Err (List String)
  | .list vs => parseStrs elemErr vs
  | .strList ss => .ok ss
  | .str s => .ok (splitSpace s)
  | v => .error (typeErr v)

/-- The for-range over candidate keys in the roles and scopes blocks:
each present key contributes its parsed values in key order. -/
def aggFromKeys (f : Value → Except Err (List String)) (m : Dict) :
    List String → Except Err (List String)
  | [] => .ok []
  | k :: rest =>
      match lookupKV m k with
      | none => aggFromKeys f m rest
      | some v =>
          (f v).bind (fun rs => (aggFromKeys f m rest).map (fun r => rs ++ r))

/-- The roles aggregated from the four top-level role keys, in source order. -/
def rolesFromKeys (m : Dict) : Except Err (List String) :=
  aggFromKeys (aggFromValue Err.errInvalidRole Err.errInvalidRoleType) m
    ["roles", "role", "groups", "group"]

/-- The supplementary roles found under app_metadata.authorization.roles.
A non-dictionary app_metadata or authorization entry is silently skipped
(those switches have no default case in the source), a roles entry of an
unrecognized aggregate type fails with the app-metadata role type error, and
a non-string element inside a generic roles list fails with the role error. -/
def appMetadataRoles (m : Dict) : Except Err (List String) :=
  match lookupKV m "app_metadata" with
  | some (.obj appMetadata) =>
      match lookupKV appMetadata "authorization" with
      | some (.obj appMetadataAuthz) =>
          match lookupKV appMetadataAuthz "roles" with
          | some (.list vs) => parseStrs Err.errInvalidRole vs
          | some (.strList ss) => .ok ss
          | some v => .error (Err.errInvalidAppMetadataRoleType v)
          | none => .ok []
      | _ => .ok []
  | _ => .ok []

/-- The supplementary roles found under realm_access.roles.  Unlike the
app_metadata block, the roles switch here has no default case, so a roles
entry of an unrecognized aggregate type is silently skipped; a non-string
element inside a generic roles list still fails with the role error. -/
def realmAccessRoles (m : Dict) : Except Err (List String) :=
  match lookupKV m "realm_access" with
  | some (.obj realmAccess) =>
      match lookupKV realmAccess "roles" with
      | some (.list vs) => parseStrs Err.errInvalidRole vs
      | some (.strList ss) => .ok ss
      | _ => .ok []
  | _ => .ok []

/-- The scopes aggregated from the two top-level scope keys. -/
def scopesFromKeys (m : Dict) : Except Err (List String) :=
  aggFromKeys (aggFromValue Err.errInvalidScope Err.errInvalidScopeType) m
    ["scopes", "scope"]

/-- The email loop over the two candidate keys: each present key must hold a
string and unconditionally overwrites the value resolved so far. -/
def emailFromKeys (m : Dict) : String → List String → Except Err String
  | e0, [] => .ok e0
  | e0, k :: rest =>
      match lookupKV m k with
      | none => emailFromKeys m e0 rest
      | some (.str s) => emailFromKeys m s rest
      | some v => .error (Err.errInvalidEmailClaimType k v)

/-- The packedNames loop of the name block: every element must be a string,
elements equal to the already-resolved email are skipped, and the name type
error carries the whole name value. -/
def packNames (email : String) (whole : Value) : List Value → Except Err (List String)
  | [] => .ok []
  | .str n :: rest =>
      (packNames email whole rest).map (fun r => if n = email then r else n :: r)
  | _ :: _ => .error (Err.errInvalidNameClaimType whole)

/-- The numeric arms of the timestamp switches: float64, int, int64 and
json.Number values coerce to an int64, everything else is rejected. -/
def numValue : Value → Option Int
  | .float n => some n
  | .int n => some n
  | .int64 n => some n
  | .jsonNumber n => some n
  | _ => none

/-- Assignment into the access-list path map: a repeated path leaves the key
set unchanged, a new path is added. -/
def insertPath (ps : List String) (p : String) : List String :=
  if p ∈ ps then ps else ps ++ [p]

/-- The for-range over a generic path list shared by the top-level paths
block and the acl.paths list arm: each string element is inserted into the
path map (created on first insertion), a non-string element fails with the
access-list path error. -/
def collectPathList (acc : Option (List String)) :
    List Value → Except Err (Option (List String))
  | [] => .ok acc
  | .str s :: rest => collectPathList (some (insertPath (acc.getD []) s)) rest
  | v :: _ => .error (Err.errInvalidAccessListPath v)

/-- The for-range over the keys of an acl.paths dictionary: every key is
inserted into the path map (created on first insertion). -/
def collectPathKeys (acc : Option (List String)) :
    List (String × Value) → Option (List String)
  | [] => acc
  | (k, _) :: rest => collectPathKeys (some (insertPath (acc.getD []) k)) rest

/-- The top-level paths block: only a generic list shape is recognized, any
other shape is silently skipped. -/
def pathsTopResult (m : Dict) (acc : Option (List String)) :
    Except Err (Option (List String)) :=
  match lookupKV m "paths" with
  | some (.list vs) => collectPathList acc vs
  | _ => .ok acc

/-- The acl block: a dictionary acl with a paths entry that is either a
dictionary (keys are paths) or a generic list of path strings; every other
shape is silently skipped. -/
def pathsAclResult (m : Dict) (acc : Option (List String)) :
    Except Err (Option (List String)) :=
  match lookupKV m "acl" with
  | some (.obj acl) =>
      match lookupKV acl "paths" with
      | some (.obj paths) => .ok (collectPathKeys acc paths)
      | some (.list vs) => collectPathList acc vs
      | _ => .ok acc
  | _ => .ok acc

/-- Both path sources in source order: the top-level paths block, then the
acl block, both feeding the same underlying path map. -/
def collectAllPaths (m : Dict) : Except Err (Option (List String)) :=
  (pathsTopResult m none).bind (fun r => pathsAclResult m r)

/-- The default-role seeding at the end of NewUser. -/
def seedRoles (rs : List String) : List String :=
  if rs.length = 0 then rs ++ ["anonymous"] ++ ["guest"] else rs

/-- Shared shape of the jti, iss, sub, origin and addr blocks: the field must
be a plain string and on success is written to the claims record and to both
projections under its wire key. -/
def stepStrBoth (key : String) (mkErr : Value → Err) (setF : Claims → String → Claims)
    (m : Dict) (st : Norm) : Except Err Norm :=
  match lookupKV m key with
  | none => .ok st
  | some (.str s) =>
      .ok { st with c := setF st.c s,
                    tkv := mapSet st.tkv key (.str s),
                    mkv := mapSet st.mkv key (.str s) }
  | some v => .error (mkErr v)

/-- Shared shape of the picture and username blocks: a plain string written
to the claims record and to the full projection only. -/
def stepStrMkv (key : String) (mkErr : Value → Err) (setF : Claims → String → Claims)
    (m : Dict) (st : Norm) : Except Err Norm :=
  match lookupKV m key with
  | none => .ok st
  | some (.str s) =>
      .ok { st with c := setF st.c s, mkv := mapSet st.mkv key (.str s) }
  | some v => .error (mkErr v)

/-- Shared shape of the exp, iat and nbf blocks: a numeric value coerced to
int64 and written to the claims record and to the full projection only. -/
def stepNum (key : String) (mkErr : Value → Err) (setF : Claims → Int → Claims)
    (m : Dict) (st : Norm) : Except Err Norm :=
  match lookupKV m key with
  | none => .ok st
  | some v =>
      match numValue v with
      | some n => .ok { st with c := setF st.c n, mkv := mapSet st.mkv key (.int64 n) }
      | none => .error (mkErr v)

/-- The aud block: element-wise validation, then the length switch writing
the bare string to the full projection for exactly one entry, the list to
both projections for two or more, and nothing for zero entries. -/
def audFromValue : Value → Except Err (List String)
  | .str s => .ok [s]
  | .list vs => parseStrs Err.errInvalidAudience vs
  | .strList ss => .ok ss
  | v => .error (Err.errInvalidAudienceType v)

/-- Step for the aud block of NewUser. -/
def stepAud (m : Dict) (st : Norm) : Except Err Norm :=
  match lookupKV m "aud" with
  | none => .ok st
  | some v =>
      match audFromValue v with
      | .error e => .error e
      | .ok aud =>
          match aud with
          | [] => .ok { st with c := { st.c with audience := aud } }
          | [x] =>
              .ok { st with c := { st.c with audience := aud },
                            tkv := mapSet st.tkv "aud" (.strList aud),
                            mkv := mapSet st.mkv "aud" (.str x) }
          | _ =>
              .ok { st with c := { st.c with audience := aud },
                            tkv := mapSet st.tkv "aud" (.strList aud),
                            mkv := mapSet st.mkv "aud" (.strList aud) }

/-- Step for the exp block. -/
def stepExp (m : Dict) (st : Norm) : Except Err Norm :=
  stepNum "exp" Err.errInvalidClaimExpiresAt (fun c n => { c with expiresAt := n }) m st

/-- Step for the jti block. -/
def stepJti (m : Dict) (st : Norm) : Except Err Norm :=
  stepStrBoth "jti" Err.errInvalidIDClaimType (fun c s => { c with id := s }) m st

/-- Step for the iat block. -/
def stepIat (m : Dict) (st : Norm) : Except Err Norm :=
  stepNum "iat" Err.errInvalidClaimIssuedAt (fun c n => { c with issuedAt := n }) m st

/-- Step for the iss block. -/
def stepIss (m : Dict) (st : Norm) : Except Err Norm :=
  stepStrBoth "iss" Err.errInvalidIssuerClaimType (fun c s => { c with issuer := s }) m st

/-- Step for the nbf block. -/
def stepNbf (m : Dict) (st : Norm) : Except Err Norm :=
  stepNum "nbf" Err.errInvalidClaimNotBefore (fun c n => { c with notBefore := n }) m st

/-- Step for the sub block. -/
def stepSub (m : Dict) (st : Norm) : Except Err Norm :=
  stepStrBoth "sub" Err.errInvalidSubjectClaimType (fun c s => { c with subject := s }) m st

/-- Step for the email block: the two keys are resolved in order and the
resolved value is written under the mail wire key only when non-empty. -/
def stepEmail (m : Dict) (st : Norm) : Except Err Norm :=
  match emailFromKeys m st.c.email ["email", "mail"] with
  | .error e => .error e
  | .ok em =>
      if em = "" then .ok { st with c := { st.c with email := em } }
      else
        .ok { st with c := { st.c with email := em },
                      tkv := mapSet st.tkv "mail" (.str em),
                      mkv := mapSet st.mkv "mail" (.str em) }

/-- Step for the name block: a plain string, or a generic list of strings
skipping elements equal to the resolved email, joined with single spaces. -/
def stepName (m : Dict) (st : Norm) : Except Err Norm :=
  match lookupKV m "name" with
  | none => .ok st
  | some (.str s) =>
      .ok { st with c := { st.c with name := s },
                    tkv := mapSet st.tkv "name" (.str s),
                    mkv := mapSet st.mkv "name" (.str s) }
  | some (.list vs) =>
      match packNames st.c.email (.list vs) vs with
      | .error e => .error e
      | .ok ns =>
          let nm := String.intercalate " " ns
          .ok { st with c := { st.c with name := nm },
                        tkv := mapSet st.tkv "name" (.str nm),
                        mkv := mapSet st.mkv "name" (.str nm) }
  | some v => .error (Err.errInvalidNameClaimType v)

/-- Step for the four top-level role keys. -/
def stepRoles (m : Dict) (st : Norm) : Except Err Norm :=
  match rolesFromKeys m with
  | .error e => .error e
  | .ok rs => .ok { st with c := { st.c with roles := st.c.roles ++ rs } }

/-- Step for the app_metadata.authorization.roles supplementary source. -/
def stepAppMetadata (m : Dict) (st : Norm) : Except Err Norm :=
  match appMetadataRoles m with
  | .error e => .error e
  | .ok rs => .ok { st with c := { st.c with roles := st.c.roles ++ rs } }

/-- Step for the realm_access.roles supplementary source. -/
def stepRealmAccess (m : Dict) (st : Norm) : Except Err Norm :=
  match realmAccessRoles m with
  | .error e => .error e
  | .ok rs => .ok { st with c := { st.c with roles := st.c.roles ++ rs } }

/-- Step for the scopes block, including the conditional write of the
non-empty scope list to both projections (space-joined in the full one). -/
def stepScopes (m : Dict) (st : Norm) : Except Err Norm :=
  match scopesFromKeys m with
  | .error e => .error e
  | .ok ss =>
      if 0 < (st.c.scopes ++ ss).length then
        .ok { st with c := { st.c with scopes := st.c.scopes ++ ss },
                      tkv := mapSet st.tkv "scopes" (.strList (st.c.scopes ++ ss)),
                      mkv := mapSet st.mkv "scopes"
                        (.str (String.intercalate " " (st.c.scopes ++ ss))) }
      else .ok { st with c := { st.c with scopes := st.c.scopes ++ ss } }

/-- Step for the top-level paths block. -/
def stepPaths (m : Dict) (st : Norm) : Except Err Norm :=
  match pathsTopResult m st.c.aclPaths with
  | .error e => .error e
  | .ok r => .ok { st with c := { st.c with aclPaths := r } }

/-- Step for the acl block. -/
def stepAcl (m : Dict) (st : Norm) : Except Err Norm :=
  match pathsAclResult m st.c.aclPaths with
  | .error e => .error e
  | .ok r => .ok { st with c := { st.c with aclPaths := r } }

/-- The rendering of the access-list path map as a projection value: each
path keyed to an empty dictionary, as built by the source. -/
def pathsAsObj (ps : List String) : Value :=
  .obj (ps.map (fun p => (p, Value.obj [])))

/-- Step writing the collected non-nil path map to both projections nested
under an acl object with a paths key. -/
def stepAclWrite (_m : Dict) (st : Norm) : Except Err Norm :=
  match st.c.aclPaths with
  | some ps =>
      .ok { st with tkv := mapSet st.tkv "acl" (.obj [("paths", pathsAsObj ps)]),
                    mkv := mapSet st.mkv "acl" (.obj [("paths", pathsAsObj ps)]) }
  | none => .ok st

/-- Step for the origin block. -/
def stepOrigin (m : Dict) (st : Norm) : Except Err Norm :=
  stepStrBoth "origin" Err.errInvalidOriginClaimType (fun c s => { c with origin := s }) m st

/-- Step for the org block: aggregate value handling as for roles, the list
written to the reduced projection and the space-joined string to the full
projection. -/
def stepOrg (m : Dict) (st : Norm) : Except Err Norm :=
  match lookupKV m "org" with
  | none => .ok st
  | some v =>
      match aggFromValue Err.errInvalidOrg Err.errInvalidOrgType v with
      | .error e => .error e
      | .ok os =>
          let orgs := st.c.organizations ++ os
          .ok { st with c := { st.c with organizations := orgs },
                        tkv := mapSet st.tkv "org" (.strList orgs),
                        mkv := mapSet st.mkv "org" (.str (String.intercalate " " orgs)) }

/-- Step for the addr block. -/
def stepAddr (m : Dict) (st : Norm) : Except Err Norm :=
  stepStrBoth "addr" Err.errInvalidAddrType (fun c s => { c with address := s }) m st

/-- Step for the picture block. -/
def stepPicture (m : Dict) (st : Norm) : Except Err Norm :=
  stepStrMkv "picture" Err.errInvalidPictureClaimType (fun c s => { c with pictureURL := s }) m st

/-- Step for the metadata block: only a nested dictionary is accepted. -/
def stepMetadata (m : Dict) (st : Norm) : Except Err Norm :=
  match lookupKV m "metadata" with
  | none => .ok st
  | some (.obj mm) =>
      .ok { st with c := { st.c with metadata := some mm },
                    mkv := mapSet st.mkv "metadata" (.obj mm) }
  | some v => .error (Err.errInvalidMetadataClaimType v)

/-- Step for the username block.  As in the source, the rejection branch
reuses the metadata claim type error rather than a username-specific one. -/
def stepUsername (m : Dict) (st : Norm) : Except Err Norm :=
  stepStrMkv "username" Err.errInvalidMetadataClaimType (fun c s => { c with username := s }) m st

/-- The tail of NewUser: seed the default roles when none were collected,
write the final role list to both projections, and build the role index. -/
def finalize (st : Norm) : User :=
  let roles := seedRoles st.c.roles
  { claims := { st.c with roles := roles },
    tkv := mapSet st.tkv "roles" (.strList roles),
    mkv := mapSet st.mkv "roles" (.strList roles),
    rkv := roles,
    frontendLinks := [] }

/-- NewUser on an already-decoded dictionary (the map arm of the input type
switch; the JSON string and byte arms delegate to an external decoder and
feed the same dictionary code path).  An empty dictionary is rejected with
the invalid-user-data error, then the per-field blocks run in source order. -/
def NewUser (m : Dict) : Except Err User :=
  if m.length = 0 then .error Err.errInvalidUserDataType else
  (stepAud m ⟨{}, [], []⟩).bind (fun st =>
  (stepExp m st).bind (fun st =>
  (stepJti m st).bind (fun st =>
  (stepIat m st).bind (fun st =>
  (stepIss m st).bind (fun st =>
  (stepNbf m st).bind (fun st =>
  (stepSub m st).bind (fun st =>
  (stepEmail m st).bind (fun st =>
  (stepName m st).bind (fun st =>
  (stepRoles m st).bind (fun st =>
  (stepAppMetadata m st).bind (fun st =>
  (stepRealmAccess m st).bind (fun st =>
  (stepScopes m st).bind (fun st =>
  (stepPaths m st).bind (fun st =>
  (stepAcl m st).bind (fun st =>
  (stepAclWrite m st).bind (fun st =>
  (stepOrigin m st).bind (fun st =>
  (stepOrg m st).bind (fun st =>
  (stepAddr m st).bind (fun st =>
  (stepPicture m st).bind (fun st =>
  (stepMetadata m st).bind (fun st =>
  (stepUsername m st).bind (fun st =>
  .ok (finalize st)))))))))))))))))))))))

/-- Element validation of a generic link list in AddFrontendLinks: every
element must be a string; the error (reusing the checkpoint invalid type
error, as the source does) carries the whole list value. -/
def parseLinkList (whole : Value) : List Value → Except Err (List String)
  | [] => .ok []
  | .str s :: rest => (parseLinkList whole rest).map (fun r => s :: r)
  | _ :: _ => .error (Err.errCheckpointInvalidType whole)

/-- The entries switch of AddFrontendLinks: scalar string, string list, or a
generic list validated element-wise; any other outer shape fails with the
frontend link invalid type error. -/
def parseLinkEntries : Value → Except Err (List String)
  | .str s => .ok [s]
  | .strList l => .ok l
  | .list l => parseLinkList (.list l) l
  | v => .error (Err.errFrontendLinkInvalidType v)

/-- Go map write for the bool-valued map of AddFrontendLinks. -/
def mapSetB : List (String × Bool) → String → Bool → List (String × Bool)
  | [], k, v => [(k, v)]
  | (k', v') :: rest, k, v =>
      if k' = k then (k, v) :: rest else (k', v') :: mapSetB rest k v

/-- Go map read for the bool-valued map of AddFrontendLinks. -/
def lookupB : List (String × Bool) → String → Option Bool
  | [], _ => none
  | (k', v) :: rest, k => if k' = k then some v else lookupB rest k

/-- The merge phase of AddFrontendLinks, exactly as in the source: mark every
batch entry true, demote entries already accumulated to false, then walk the
batch again appending every entry still marked true. -/
def mergeLinks (links entries : List String) : List String :=
  let m0 := entries.foldl (fun m e => mapSetB m e true) []
  let m1 := links.foldl
    (fun m l => if (lookupB m l).isSome then mapSetB m l false else m) m0
  entries.foldl (fun acc e => if lookupB m1 e = some true then acc ++ [e] else acc) links

/-- AddFrontendLinks as a state transformer on the frontend-link list of the
receiver: the first component is the returned error (none on success), the
second the link list after the call.  All early error returns of the source
occur before any mutation, so they leave the list unchanged. -/
def AddFrontendLinks (links : List String) (v : Value) : Option Err × List String :=
  match parseLinkEntries v with
  | .error e => (some e, links)
  | .ok entries => (none, mergeLinks links entries)

/-- Modelled from the spec: cfgutils.DecodeArgs, whose source is not part of
this repository snapshot, tokenizes a directive string into space-separated,
quote-aware arguments.  Characters are folded left to right; a double quote
toggles quoting, an unquoted space ends the current token, and empty tokens
are not produced. -/
def decodeArgsGo : List Char → Bool → List Char → List String → List String
  | [], _, cur, acc => if cur = [] then acc else acc ++ [String.mk cur.reverse]
  | ch :: rest, inQ, cur, acc =>
      if ch = '"' then decodeArgsGo rest (!inQ) cur acc
      else if ch = ' ' && !inQ then
        if cur = [] then decodeArgsGo rest inQ [] acc
        else decodeArgsGo rest inQ [] (acc ++ [String.mk cur.reverse])
      else decodeArgsGo rest inQ (ch :: cur) acc

/-- Modelled from the spec: the argument list of a directive string. -/
def decodeArgs (s : String) : List String :=
  decodeArgsGo s.data false [] []

/-- NewCheckpoint from the source: only the require directive with exactly
two tokens is accepted, and only the mfa argument is recognized, producing
the multi-factor authentication checkpoint; the generic fmt errors of the
source are modelled by dedicated error constructors. -/
def NewCheckpoint (s : String) : Except Err Checkpoint :=
  match decodeArgs s with
  | ["require", "mfa"] =>
      .ok { name := "Multi-factor authentication", type := "mfa" }
  | ["require", a] => .error (Err.errUnsupportedRequireKeyword a)
  | "require" :: _ => .error Err.errMustContainTwoKeywords
  | a :: _ => .error (Err.errUnsupportedKeyword a)
  | [] => .error (Err.errUnsupportedKeyword "")

/-- The indexed construction loop of NewCheckpoints: each entry is parsed,
a parse failure is wrapped with the offending entry, and each checkpoint
receives the zero-based index of its entry as its sequence id. -/
def buildCheckpoints : List String → Nat → Except Err (List Checkpoint)
  | [], _ => .ok []
  | e :: rest, i =>
      match NewCheckpoint e with
      | .error err => .error (Err.errCheckpointInvalidInput e err)
      | .ok c =>
          (buildCheckpoints rest (i + 1)).map
            (fun cs => { c with id := Int.ofNat i } :: cs)

/-- The entries switch of NewCheckpoints: scalar string, string list, or a
generic list validated element-wise; any other outer shape fails with the
checkpoint invalid type error, which the element rejection also reuses. -/
def checkpointEntries : Value → Except Err (List String)
  | .str s => .ok [s]
  | .strList l => .ok l
  | .list l => parseLinkList (.list l) l
  | v => .error (Err.errCheckpointInvalidType v)

/-- NewCheckpoints from the source: the entries switch, the indexed
construction loop, and the final empty-result check. -/
def NewCheckpoints (v : Value) : Except Err (List Checkpoint) :=
  match checkpointEntries v with
  | .error e => .error e
  | .ok entries =>
      match buildCheckpoints entries 0 with
      | .error e => .error e
      | .ok checkpoints =>
          if checkpoints.length < 1 then .error Err.errCheckpointEmpty
          else .ok checkpoints

/-- Membership in an optional path list (a nil map holds no path). -/
def optMem (o : Option (List String)) (q : String) : Prop := q ∈ o.getD []

/-- Absence of duplicates in an optional path list. -/
def optNodup (o : Option (List String)) : Prop := (o.getD []).Nodup

/-- The outer shapes accepted by AddFrontendLinks: scalar string, string
list, or generic list; every other dynamic type is rejected. -/
def isLinkShape : Value → Bool
  | .str _ => true
  | .strList _ => true
  | .list _ => true
  | _ => false

/-- The user built from a dictionary holding only a subject entry. -/
def c3u : User :=
  { claims := { subject := "alice", roles := ["anonymous", "guest"] },
    mkv := [("sub", .str "alice"), ("roles", .strList ["anonymous", "guest"])],
    tkv := [("sub", .str "alice"), ("roles", .strList ["anonymous", "guest"])],
    rkv := ["anonymous", "guest"],
    frontendLinks := [] }

/-- The user built from a dictionary holding only a scalar audience entry. -/
def c5u : User :=
  { claims := { audience := ["x"], roles := ["anonymous", "guest"] },
    mkv := [("aud", .str "x"), ("roles", .strList ["anonymous", "guest"])],
    tkv := [("aud", .strList ["x"]), ("roles", .strList ["anonymous", "guest"])],
    rkv := ["anonymous", "guest"],
    frontendLinks := [] }

/-- The user built from a dictionary holding a top-level path list and an
acl path list. -/
def c6u : User :=
  { claims := { roles := ["anonymous", "guest"], aclPaths := some ["/a", "/b"] },
    mkv := [("acl", .obj [("paths", .obj [("/a", .obj []), ("/b", .obj [])])]),
            ("roles", .strList ["anonymous", "guest"])],
    tkv := [("acl", .obj [("paths", .obj [("/a", .obj []), ("/b", .obj [])])]),
            ("roles", .strList ["anonymous", "guest"])],
    rkv := ["anonymous", "guest"],
    frontendLinks := [] }

/-- The checkpoints built from two identical require-mfa directives. -/
def c7list : List Checkpoint :=
  [{ id := 0, name := "Multi-factor authentication", type := "mfa" },
   { id := 1, name := "Multi-factor authentication", type := "mfa" }]

/-- The user built from a dictionary holding only an empty-string role. -/
def c9u : User :=
  { claims := { roles := [""] },
    mkv := [("roles", .strList [""])],
    tkv := [("roles", .strList [""])],
    rkv := [""],
    frontendLinks := [] }

/-- Inversion of a successful Except bind. -/
theorem exbind_ok {α β : Type} {x : Except Err α} {f : α → Except Err β} {b : β}
    (h : x.bind f = Except.ok b) : ∃ a, x = Except.ok a ∧ f a = Except.ok b := by
  cases x with
  | error e => exact absurd h (by simp [Except.bind])
  | ok a => exact ⟨a, rfl, h⟩

/-- Reading back the key just written by a Go map assignment. -/
theorem lookupKV_mapSet_self (m : Dict) (k : String) (v : Value) :
    lookupKV (mapSet m k v) k = some v := by
  induction m with
  | nil => simp [mapSet, lookupKV]
  | cons p t ih =>
      obtain ⟨k', v'⟩ := p
      by_cases hk : k' = k
      · simp [mapSet, hk, lookupKV]
      · simp [mapSet, hk, lookupKV, ih]

/-- A Go map assignment leaves every other key unchanged. -/
theorem lookupKV_mapSet_ne (m : Dict) (k k' : String) (v : Value) (h : k' ≠ k) :
    lookupKV (mapSet m k v) k' = lookupKV m k' := by
  induction m with
  | nil => simp [mapSet, lookupKV, Ne.symm h]
  | cons p t ih =>
      obtain ⟨k'', v''⟩ := p
      by_cases hk : k'' = k
      · subst hk; simp [mapSet, lookupKV, Ne.symm h]
      · simp [mapSet, hk, lookupKV, ih]

/-- Frame property of the shared string-to-both-projections block shape. -/
theorem stepStrBoth_ok {key : String} {mkErr : Value → Err} {setF : Claims → String → Claims}
    {m : Dict} {st st' : Norm} (h : stepStrBoth key mkErr setF m st = .ok st')
    (hR : ∀ c s, (setF c s).roles = c.roles)
    (hA : ∀ c s, (setF c s).aclPaths = c.aclPaths) :
    (∀ k, k ≠ key →
        lookupKV st'.mkv k = lookupKV st.mkv k ∧ lookupKV st'.tkv k = lookupKV st.tkv k)
    ∧ st'.c.roles = st.c.roles ∧ st'.c.aclPaths = st.c.aclPaths := by
  unfold stepStrBoth at h
  split at h
  · cases h; exact ⟨fun k _ => ⟨rfl, rfl⟩, rfl, rfl⟩
  · cases h
    exact ⟨fun k hk =>
      ⟨lookupKV_mapSet_ne _ _ _ _ hk, lookupKV_mapSet_ne _ _ _ _ hk⟩, hR .., hA ..⟩
  · exact absurd h (by simp)

/-- Frame property of the shared string-to-full-projection block shape. -/
theorem stepStrMkv_ok {key : String} {mkErr : Value → Err} {setF : Claims → String → Claims}
    {m : Dict} {st st' : Norm} (h : stepStrMkv key mkErr setF m st = .ok st')
    (hR : ∀ c s, (setF c s).roles = c.roles)
    (hA : ∀ c s, (setF c s).aclPaths = c.aclPaths) :
    (∀ k, k ≠ key → lookupKV st'.mkv k = lookupKV st.mkv k)
    ∧ st'.tkv = st.tkv ∧ st'.c.roles = st.c.roles ∧ st'.c.aclPaths = st.c.aclPaths := by
  unfold stepStrMkv at h
  split at h
  · cases h; exact ⟨fun k _ => rfl, rfl, rfl, rfl⟩
  · cases h
    exact ⟨fun k hk => lookupKV_mapSet_ne _ _ _ _ hk, rfl, hR .., hA ..⟩
  · exact absurd h (by simp)

/-- Frame property of the shared numeric-timestamp block shape. -/
theorem stepNum_ok {key : String} {mkErr : Value → Err} {setF : Claims → Int → Claims}
    {m : Dict} {st st' : Norm} (h : stepNum key mkErr setF m st = .ok st')
    (hR : ∀ c n, (setF c n).roles = c.roles)
    (hA : ∀ c n, (setF c n).aclPaths = c.aclPaths) :
    (∀ k, k ≠ key → lookupKV st'.mkv k = lookupKV st.mkv k)
    ∧ st'.tkv = st.tkv ∧ st'.c.roles = st.c.roles ∧ st'.c.aclPaths = st.c.aclPaths := by
  unfold stepNum at h
  split at h
  · cases h; exact ⟨fun k _ => rfl, rfl, rfl, rfl⟩
  · split at h
    · cases h
      exact ⟨fun k hk => lookupKV_mapSet_ne _ _ _ _ hk, rfl, hR .., hA ..⟩
    · exact absurd h (by simp)

/-- Frame property of the aud block: only the aud key of the projections is
touched, and neither roles nor the path set. -/
theorem stepAud_ok {m : Dict} {st st' : Norm} (h : stepAud m st = .ok st') :
    (∀ k, k ≠ "aud" →
        lookupKV st'.mkv k = lookupKV st.mkv k ∧ lookupKV st'.tkv k = lookupKV st.tkv k)
    ∧ st'.c.roles = st.c.roles ∧ st'.c.aclPaths = st.c.aclPaths := by
  unfold stepAud at h
  split at h
  · cases h; exact ⟨fun k _ => ⟨rfl, rfl⟩, rfl, rfl⟩
  · split at h
    · exact absurd h (by simp)
    · split at h
      · cases h; exact ⟨fun k _ => ⟨rfl, rfl⟩, rfl, rfl⟩
      · cases h
        exact ⟨fun k hk =>
          ⟨lookupKV_mapSet_ne _ _ _ _ hk, lookupKV_mapSet_ne _ _ _ _ hk⟩, rfl, rfl⟩
      · cases h
        exact ⟨fun k hk =>
          ⟨lookupKV_mapSet_ne _ _ _ _ hk, lookupKV_mapSet_ne _ _ _ _ hk⟩, rfl, rfl⟩

/-- Frame property of the email block. -/
theorem stepEmail_ok {m : Dict} {st st' : Norm} (h : stepEmail m st = .ok st') :
    (∀ k, k ≠ "mail" →
        lookupKV st'.mkv k = lookupKV st.mkv k ∧ lookupKV st'.tkv k = lookupKV st.tkv k)
    ∧ st'.c.roles = st.c.roles ∧ st'.c.aclPaths = st.c.aclPaths := by
  unfold stepEmail at h
  split at h
  · exact absurd h (by simp)
  · split at h
    · cases h; exact ⟨fun k _ => ⟨rfl, rfl⟩, rfl, rfl⟩
    · cases h
      exact ⟨fun k hk =>
        ⟨lookupKV_mapSet_ne _ _ _ _ hk, lookupKV_mapSet_ne _ _ _ _ hk⟩, rfl, rfl⟩

/-- Frame property of the name block. -/
theorem stepName_ok {m : Dict} {st st' : Norm} (h : stepName m st = .ok st') :
    (∀ k, k ≠ "name" →
        lookupKV st'.mkv k = lookupKV st.mkv k ∧ lookupKV st'.tkv k = lookupKV st.tkv k)
    ∧ st'.c.roles = st.c.roles ∧ st'.c.aclPaths = st.c.aclPaths := by
  unfold stepName at h
  split at h
  · cases h; exact ⟨fun k _ => ⟨rfl, rfl⟩, rfl, rfl⟩
  · cases h
    exact ⟨fun k hk =>
      ⟨lookupKV_mapSet_ne _ _ _ _ hk, lookupKV_mapSet_ne _ _ _ _ hk⟩, rfl, rfl⟩
  · split at h
    · exact absurd h (by simp)
    · cases h
      exact ⟨fun k hk =>
        ⟨lookupKV_mapSet_ne _ _ _ _ hk, lookupKV_mapSet_ne _ _ _ _ hk⟩, rfl, rfl⟩
  · exact absurd h (by simp)

/-- The roles block leaves both projections and the path set unchanged and
appends exactly the roles parsed from the four top-level keys. -/
theorem stepRoles_ok {m : Dict} {st st' : Norm} (h : stepRoles m st = .ok st') :
    st'.mkv = st.mkv ∧ st'.tkv = st.tkv ∧ st'.c.aclPaths = st.c.aclPaths
    ∧ ∃ rs, rolesFromKeys m = .ok rs ∧ st'.c.roles = st.c.roles ++ rs := by
  unfold stepRoles at h
  split at h
  · exact absurd h (by simp)
  · cases h
    exact ⟨rfl, rfl, rfl, _, by assumption, rfl⟩

/-- The app_metadata block leaves both projections and the path set
unchanged and appends exactly the supplementary roles it finds. -/
theorem stepAppMetadata_ok {m : Dict} {st st' : Norm} (h : stepAppMetadata m st = .ok st') :
    st'.mkv = st.mkv ∧ st'.tkv = st.tkv ∧ st'.c.aclPaths = st.c.aclPaths
    ∧ ∃ rs, appMetadataRoles m = .ok rs ∧ st'.c.roles = st.c.roles ++ rs := by
  unfold stepAppMetadata at h
  split at h
  · exact absurd h (by simp)
  · cases h
    exact ⟨rfl, rfl, rfl, _, by assumption, rfl⟩

/-- The realm_access block leaves both projections and the path set
unchanged and appends exactly the supplementary roles it finds. -/
theorem stepRealmAccess_ok {m : Dict} {st st' : Norm} (h : stepRealmAccess m st = .ok st') :
    st'.mkv = st.mkv ∧ st'.tkv = st.tkv ∧ st'.c.aclPaths = st.c.aclPaths
    ∧ ∃ rs, realmAccessRoles m = .ok rs ∧ st'.c.roles = st.c.roles ++ rs := by
  unfold stepRealmAccess at h
  split at h
  · exact absurd h (by simp)
  · cases h
    exact ⟨rfl, rfl, rfl, _, by assumption, rfl⟩

/-- Frame property of the scopes block. -/
theorem stepScopes_ok {m : Dict} {st st' : Norm} (h : stepScopes m st = .ok st') :
    (∀ k, k ≠ "scopes" →
        lookupKV st'.mkv k = lookupKV st.mkv k ∧ lookupKV st'.tkv k = lookupKV st.tkv k)
    ∧ st'.c.roles = st.c.roles ∧ st'.c.aclPaths = st.c.aclPaths := by
  unfold stepScopes at h
  split at h
  · exact absurd h (by simp)
  · split at h
    · cases h
      exact ⟨fun k hk =>
        ⟨lookupKV_mapSet_ne _ _ _ _ hk, lookupKV_mapSet_ne _ _ _ _ hk⟩, rfl, rfl⟩
    · cases h; exact ⟨fun k _ => ⟨rfl, rfl⟩, rfl, rfl⟩

/-- The top-level paths block leaves the projections and roles unchanged and
transforms the path set exactly as its collection function does. -/
theorem stepPaths_ok {m : Dict} {st st' : Norm} (h : stepPaths m st = .ok st') :
    st'.mkv = st.mkv ∧ st'.tkv = st.tkv ∧ st'.c.roles = st.c.roles
    ∧ pathsTopResult m st.c.aclPaths = .ok st'.c.aclPaths := by
  unfold stepPaths at h
  split at h
  · exact absurd h (by simp)
  · cases h
    exact ⟨rfl, rfl, rfl, by assumption⟩

/-- The acl block leaves the projections and roles unchanged and transforms
the path set exactly as its collection function does. -/
theorem stepAcl_ok {m : Dict} {st st' : Norm} (h : stepAcl m st = .ok st') :
    st'.mkv = st.mkv ∧ st'.tkv = st.tkv ∧ st'.c.roles = st.c.roles
    ∧ pathsAclResult m st.c.aclPaths = .ok st'.c.aclPaths := by
  unfold stepAcl at h
  split at h
  · exact absurd h (by simp)
  · cases h
    exact ⟨rfl, rfl, rfl, by assumption⟩

/-- Frame property of the acl projection write. -/
theorem stepAclWrite_ok {m : Dict} {st st' : Norm} (h : stepAclWrite m st = .ok st') :
    (∀ k, k ≠ "acl" →
        lookupKV st'.mkv k = lookupKV st.mkv k ∧ lookupKV st'.tkv k = lookupKV st.tkv k)
    ∧ st'.c.roles = st.c.roles ∧ st'.c.aclPaths = st.c.aclPaths := by
  unfold stepAclWrite at h
  split at h
  · cases h
    exact ⟨fun k hk =>
      ⟨lookupKV_mapSet_ne _ _ _ _ hk, lookupKV_mapSet_ne _ _ _ _ hk⟩, rfl, rfl⟩
  · cases h; exact ⟨fun k _ => ⟨rfl, rfl⟩, rfl, rfl⟩

/-- Frame property of the org block. -/
theorem stepOrg_ok {m : Dict} {st st' : Norm} (h : stepOrg m st = .ok st') :
    (∀ k, k ≠ "org" →
        lookupKV st'.mkv k = lookupKV st.mkv k ∧ lookupKV st'.tkv k = lookupKV st.tkv k)
    ∧ st'.c.roles = st.c.roles ∧ st'.c.aclPaths = st.c.aclPaths := by
  unfold stepOrg at h
  split at h
  · cases h; exact ⟨fun k _ => ⟨rfl, rfl⟩, rfl, rfl⟩
  · split at h
    · exact absurd h (by simp)
    · cases h
      exact ⟨fun k hk =>
        ⟨lookupKV_mapSet_ne _ _ _ _ hk, lookupKV_mapSet_ne _ _ _ _ hk⟩, rfl, rfl⟩

/-- Frame property of the metadata block. -/
theorem stepMetadata_ok {m : Dict} {st st' : Norm} (h : stepMetadata m st = .ok st') :
    (∀ k, k ≠ "metadata" → lookupKV st'.mkv k = lookupKV st.mkv k)
    ∧ st'.tkv = st.tkv ∧ st'.c.roles = st.c.roles ∧ st'.c.aclPaths = st.c.aclPaths := by
  unfold stepMetadata at h
  split at h
  · cases h; exact ⟨fun k _ => rfl, rfl, rfl, rfl⟩
  · cases h
    exact ⟨fun k hk => lookupKV_mapSet_ne _ _ _ _ hk, rfl, rfl, rfl⟩
  · exact absurd h (by simp)

/-- Frame property of the exp block. -/
theorem stepExp_ok {m : Dict} {st st' : Norm} (h : stepExp m st = .ok st') :
    (∀ k, k ≠ "exp" → lookupKV st'.mkv k = lookupKV st.mkv k)
    ∧ st'.tkv = st.tkv ∧ st'.c.roles = st.c.roles ∧ st'.c.aclPaths = st.c.aclPaths :=
  by unfold stepExp at h; exact stepNum_ok h (fun _ _ => rfl) (fun _ _ => rfl)

/-- Frame property of the jti block. -/
theorem stepJti_ok {m : Dict} {st st' : Norm} (h : stepJti m st = .ok st') :
    (∀ k, k ≠ "jti" →
        lookupKV st'.mkv k = lookupKV st.mkv k ∧ lookupKV st'.tkv k = lookupKV st.tkv k)
    ∧ st'.c.roles = st.c.roles ∧ st'.c.aclPaths = st.c.aclPaths :=
  by unfold stepJti at h; exact stepStrBoth_ok h (fun _ _ => rfl) (fun _ _ => rfl)

/-- Frame property of the iat block. -/
theorem stepIat_ok {m : Dict} {st st' : Norm} (h : stepIat m st = .ok st') :
    (∀ k, k ≠ "iat" → lookupKV st'.mkv k = lookupKV st.mkv k)
    ∧ st'.tkv = st.tkv ∧ st'.c.roles = st.c.roles ∧ st'.c.aclPaths = st.c.aclPaths :=
  by unfold stepIat at h; exact stepNum_ok h (fun _ _ => rfl) (fun _ _ => rfl)

/-- Frame property of the iss block. -/
theorem stepIss_ok {m : Dict} {st st' : Norm} (h : stepIss m st = .ok st') :
    (∀ k, k ≠ "iss" →
        lookupKV st'.mkv k = lookupKV st.mkv k ∧ lookupKV st'.tkv k = lookupKV st.tkv k)
    ∧ st'.c.roles = st.c.roles ∧ st'.c.aclPaths = st.c.aclPaths :=
  by unfold stepIss at h; exact stepStrBoth_ok h (fun _ _ => rfl) (fun _ _ => rfl)

/-- Frame property of the nbf block. -/
theorem stepNbf_ok {m : Dict} {st st' : Norm} (h : stepNbf m st = .ok st') :
    (∀ k, k ≠ "nbf" → lookupKV st'.mkv k = lookupKV st.mkv k)
    ∧ st'.tkv = st.tkv ∧ st'.c.roles = st.c.roles ∧ st'.c.aclPaths = st.c.aclPaths :=
  by unfold stepNbf at h; exact stepNum_ok h (fun _ _ => rfl) (fun _ _ => rfl)

/-- Frame property of the sub block. -/
theorem stepSub_ok {m : Dict} {st st' : Norm} (h : stepSub m st = .ok st') :
    (∀ k, k ≠ "sub" →
        lookupKV st'.mkv k = lookupKV st.mkv k ∧ lookupKV st'.tkv k = lookupKV st.tkv k)
    ∧ st'.c.roles = st.c.roles ∧ st'.c.aclPaths = st.c.aclPaths :=
  by unfold stepSub at h; exact stepStrBoth_ok h (fun _ _ => rfl) (fun _ _ => rfl)

/-- Frame property of the origin block. -/
theorem stepOrigin_ok {m : Dict} {st st' : Norm} (h : stepOrigin m st = .ok st') :
    (∀ k, k ≠ "origin" →
        lookupKV st'.mkv k = lookupKV st.mkv k ∧ lookupKV st'.tkv k = lookupKV st.tkv k)
    ∧ st'.c.roles = st.c.roles ∧ st'.c.aclPaths = st.c.aclPaths :=
  by unfold stepOrigin at h; exact stepStrBoth_ok h (fun _ _ => rfl) (fun _ _ => rfl)

/-- Frame property of the addr block. -/
theorem stepAddr_ok {m : Dict} {st st' : Norm} (h : stepAddr m st = .ok st') :
    (∀ k, k ≠ "addr" →
        lookupKV st'.mkv k = lookupKV st.mkv k ∧ lookupKV st'.tkv k = lookupKV st.tkv k)
    ∧ st'.c.roles = st.c.roles ∧ st'.c.aclPaths = st.c.aclPaths :=
  by unfold stepAddr at h; exact stepStrBoth_ok h (fun _ _ => rfl) (fun _ _ => rfl)

/-- Frame property of the picture block. -/
theorem stepPicture_ok {m : Dict} {st st' : Norm} (h : stepPicture m st = .ok st') :
    (∀ k, k ≠ "picture" → lookupKV st'.mkv k = lookupKV st.mkv k)
    ∧ st'.tkv = st.tkv ∧ st'.c.roles = st.c.roles ∧ st'.c.aclPaths = st.c.aclPaths :=
  by unfold stepPicture at h; exact stepStrMkv_ok h (fun _ _ => rfl) (fun _ _ => rfl)

/-- Frame property of the username block. -/
theorem stepUsername_ok {m : Dict} {st st' : Norm} (h : stepUsername m st = .ok st') :
    (∀ k, k ≠ "username" → lookupKV st'.mkv k = lookupKV st.mkv k)
    ∧ st'.tkv = st.tkv ∧ st'.c.roles = st.c.roles ∧ st'.c.aclPaths = st.c.aclPaths :=
  by unfold stepUsername at h; exact stepStrMkv_ok h (fun _ _ => rfl) (fun _ _ => rfl)

/-- Content of the aud block, by length of the validated audience list. -/
theorem stepAud_content {m : Dict} {st st' : Norm} {v : Value} {aud : List String}
    (hv : lookupKV m "aud" = some v) (hp : audFromValue v = .ok aud)
    (h : stepAud m st = .ok st') :
    (aud = [] → st'.mkv = st.mkv ∧ st'.tkv = st.tkv)
    ∧ (∀ x, aud = [x] →
        st'.mkv = mapSet st.mkv "aud" (.str x)
        ∧ st'.tkv = mapSet st.tkv "aud" (.strList aud))
    ∧ (2 ≤ aud.length →
        st'.mkv = mapSet st.mkv "aud" (.strList aud)
        ∧ st'.tkv = mapSet st.tkv "aud" (.strList aud)) := by
  unfold stepAud at h
  split at h
  · rename_i heq; rw [hv] at heq; exact absurd heq (by simp)
  · rename_i e heq2
    rw [hv] at heq2
    obtain rfl : v = e := by injection heq2
    rw [hp] at h
    rcases aud with _ | ⟨x, _ | ⟨y, t⟩⟩
    · injection h with h
      subst h
      exact ⟨fun _ => ⟨rfl, rfl⟩, fun x hx => absurd hx (by simp),
             fun hlen => absurd hlen (by simp)⟩
    · injection h with h
      subst h
      refine ⟨fun hx => absurd hx (by simp), ?_, fun hlen => absurd hlen (by simp)⟩
      intro y hy
      obtain rfl : x = y := by injection hy
      exact ⟨rfl, rfl⟩
    · injection h with h
      subst h
      exact ⟨fun hx => absurd hx (by simp), fun z hz => absurd hz (by simp),
             fun _ => ⟨rfl, rfl⟩⟩

/-- Master inversion of a successful NewUser run: the final role list is the
seeded concatenation of the three role sources, the role index and the roles
entries of both projections hold exactly that list, the final path set is
the composition of the two path collection passes, and the aud entries of
the projections follow the audience length switch. -/
theorem NewUser_ok_master {m : Dict} {u : User} (h : NewUser m = .ok u) :
    (∃ rs1 rs2 rs3,
        rolesFromKeys m = .ok rs1 ∧ appMetadataRoles m = .ok rs2 ∧
        realmAccessRoles m = .ok rs3 ∧
        u.claims.roles = seedRoles (rs1 ++ rs2 ++ rs3))
    ∧ u.rkv = u.claims.roles
    ∧ lookupKV u.mkv "roles" = some (Value.strList u.claims.roles)
    ∧ lookupKV u.tkv "roles" = some (Value.strList u.claims.roles)
    ∧ collectAllPaths m = .ok u.claims.aclPaths
    ∧ (∀ v aud, lookupKV m "aud" = some v → audFromValue v = .ok aud →
        ((aud = [] → lookupKV u.mkv "aud" = none ∧ lookupKV u.tkv "aud" = none)
         ∧ (∀ x, aud = [x] →
              lookupKV u.mkv "aud" = some (Value.str x)
              ∧ lookupKV u.tkv "aud" = some (Value.strList [x]))
         ∧ (2 ≤ aud.length →
              lookupKV u.mkv "aud" = some (Value.strList aud)
              ∧ lookupKV u.tkv "aud" = some (Value.strList aud)))) := by
  unfold NewUser at h
  split at h
  · exact absurd h (by simp)
  obtain ⟨s1, h1, h⟩ := exbind_ok h
  obtain ⟨s2, h2, h⟩ := exbind_ok h
  obtain ⟨s3, h3, h⟩ := exbind_ok h
  obtain ⟨s4, h4, h⟩ := exbind_ok h
  obtain ⟨s5, h5, h⟩ := exbind_ok h
  obtain ⟨s6, h6, h⟩ := exbind_ok h
  obtain ⟨s7, h7, h⟩ := exbind_ok h
  obtain ⟨s8, h8, h⟩ := exbind_ok h
  obtain ⟨s9, h9, h⟩ := exbind_ok h
  obtain ⟨s10, h10, h⟩ := exbind_ok h
  obtain ⟨s11, h11, h⟩ := exbind_ok h
  obtain ⟨s12, h12, h⟩ := exbind_ok h
  obtain ⟨s13, h13, h⟩ := exbind_ok h
  obtain ⟨s14, h14, h⟩ := exbind_ok h
  obtain ⟨s15, h15, h⟩ := exbind_ok h
  obtain ⟨s16, h16, h⟩ := exbind_ok h
  obtain ⟨s17, h17, h⟩ := exbind_ok h
  obtain ⟨s18, h18, h⟩ := exbind_ok h
  obtain ⟨s19, h19, h⟩ := exbind_ok h
  obtain ⟨s20, h20, h⟩ := exbind_ok h
  obtain ⟨s21, h21, h⟩ := exbind_ok h
  obtain ⟨s22, h22, h⟩ := exbind_ok h
  injection h with h
  subst h
  obtain ⟨fr1, hroles1, hacl1⟩ := stepAud_ok h1
  obtain ⟨fm2, ftkv2, hroles2, hacl2⟩ := stepExp_ok h2
  obtain ⟨fr3, hroles3, hacl3⟩ := stepJti_ok h3
  obtain ⟨fm4, ftkv4, hroles4, hacl4⟩ := stepIat_ok h4
  obtain ⟨fr5, hroles5, hacl5⟩ := stepIss_ok h5
  obtain ⟨fm6, ftkv6, hroles6, hacl6⟩ := stepNbf_ok h6
  obtain ⟨fr7, hroles7, hacl7⟩ := stepSub_ok h7
  obtain ⟨fr8, hroles8, hacl8⟩ := stepEmail_ok h8
  obtain ⟨fr9, hroles9, hacl9⟩ := stepName_ok h9
  obtain ⟨hmkv10, htkv10, hacl10, rs1, hrs1, hroles10⟩ := stepRoles_ok h10
  obtain ⟨hmkv11, htkv11, hacl11, rs2, hrs2, hroles11⟩ := stepAppMetadata_ok h11
  obtain ⟨hmkv12, htkv12, hacl12, rs3, hrs3, hroles12⟩ := stepRealmAccess_ok h12
  obtain ⟨fr13, hroles13, hacl13⟩ := stepScopes_ok h13
  obtain ⟨hmkv14, htkv14, hroles14, hpaths14⟩ := stepPaths_ok h14
  obtain ⟨hmkv15, htkv15, hroles15, hpaths15⟩ := stepAcl_ok h15
  obtain ⟨fr16, hroles16, hacl16⟩ := stepAclWrite_ok h16
  obtain ⟨fr17, hroles17, hacl17⟩ := stepOrigin_ok h17
  obtain ⟨fr18, hroles18, hacl18⟩ := stepOrg_ok h18
  obtain ⟨fr19, hroles19, hacl19⟩ := stepAddr_ok h19
  obtain ⟨fm20, ftkv20, hroles20, hacl20⟩ := stepPicture_ok h20
  obtain ⟨fm21, ftkv21, hroles21, hacl21⟩ := stepMetadata_ok h21
  obtain ⟨fm22, ftkv22, hroles22, hacl22⟩ := stepUsername_ok h22
  have hr1 : s1.c.roles = [] := hroles1
  have hRoles22 : s22.c.roles = rs1 ++ (rs2 ++ rs3) := by
    rw [hroles22, hroles21, hroles20, hroles19, hroles18, hroles17, hroles16,
        hroles15, hroles14, hroles13, hroles12, hroles11, hroles10,
        hroles9, hroles8, hroles7, hroles6, hroles5, hroles4, hroles3, hroles2, hr1]
    simp
  have hRolesU : (finalize s22).claims.roles = seedRoles (rs1 ++ rs2 ++ rs3) := by
    show seedRoles s22.c.roles = seedRoles (rs1 ++ rs2 ++ rs3)
    rw [hRoles22, List.append_assoc]
  have hAcl13 : s13.c.aclPaths = none := by
    rw [hacl13, hacl12, hacl11, hacl10, hacl9, hacl8, hacl7, hacl6, hacl5,
        hacl4, hacl3, hacl2, hacl1]
  have hAclU : (finalize s22).claims.aclPaths = s15.c.aclPaths := by
    show s22.c.aclPaths = s15.c.aclPaths
    rw [hacl22, hacl21, hacl20, hacl19, hacl18, hacl17, hacl16]
  refine ⟨⟨rs1, rs2, rs3, hrs1, hrs2, hrs3, hRolesU⟩, rfl, ?_, ?_, ?_, ?_⟩
  · show lookupKV (mapSet s22.mkv "roles" (Value.strList (seedRoles s22.c.roles))) "roles"
        = some (Value.strList (finalize s22).claims.roles)
    exact lookupKV_mapSet_self ..
  · show lookupKV (mapSet s22.tkv "roles" (Value.strList (seedRoles s22.c.roles))) "roles"
        = some (Value.strList (finalize s22).claims.roles)
    exact lookupKV_mapSet_self ..
  · unfold collectAllPaths
    rw [hAcl13] at hpaths14
    rw [hpaths14]
    show pathsAclResult m s14.c.aclPaths = _
    rw [hpaths15, hAclU]
  · intro v aud hv hparse
    have hM : lookupKV (finalize s22).mkv "aud" = lookupKV s1.mkv "aud" := by
      show lookupKV (mapSet s22.mkv "roles" (Value.strList (seedRoles s22.c.roles))) "aud"
          = lookupKV s1.mkv "aud"
      rw [lookupKV_mapSet_ne _ _ _ _ (by decide),
          fm22 "aud" (by decide), fm21 "aud" (by decide), fm20 "aud" (by decide),
          (fr19 "aud" (by decide)).1, (fr18 "aud" (by decide)).1, (fr17 "aud" (by decide)).1,
          (fr16 "aud" (by decide)).1, hmkv15, hmkv14, (fr13 "aud" (by decide)).1,
          hmkv12, hmkv11, hmkv10, (fr9 "aud" (by decide)).1, (fr8 "aud" (by decide)).1,
          (fr7 "aud" (by decide)).1, fm6 "aud" (by decide), (fr5 "aud" (by decide)).1,
          fm4 "aud" (by decide), (fr3 "aud" (by decide)).1, fm2 "aud" (by decide)]
    have hT : lookupKV (finalize s22).tkv "aud" = lookupKV s1.tkv "aud" := by
      show lookupKV (mapSet s22.tkv "roles" (Value.strList (seedRoles s22.c.roles))) "aud"
          = lookupKV s1.tkv "aud"
      rw [lookupKV_mapSet_ne _ _ _ _ (by decide),
          ftkv22, ftkv21, ftkv20,
          (fr19 "aud" (by decide)).2, (fr18 "aud" (by decide)).2, (fr17 "aud" (by decide)).2,
          (fr16 "aud" (by decide)).2, htkv15, htkv14, (fr13 "aud" (by decide)).2,
          htkv12, htkv11, htkv10, (fr9 "aud" (by decide)).2, (fr8 "aud" (by decide)).2,
          (fr7 "aud" (by decide)).2, ftkv6, (fr5 "aud" (by decide)).2,
          ftkv4, (fr3 "aud" (by decide)).2, ftkv2]
    obtain ⟨hc0, hc1, hc2⟩ := stepAud_content hv hparse h1
    refine ⟨?_, ?_, ?_⟩
    · intro he
      obtain ⟨hm', ht'⟩ := hc0 he
      rw [hM, hm', hT, ht']
      exact ⟨rfl, rfl⟩
    · intro x hx
      obtain ⟨hm', ht'⟩ := hc1 x hx
      rw [hM, hm', hT, ht']
      exact ⟨lookupKV_mapSet_self .., by rw [← hx]; exact lookupKV_mapSet_self ..⟩
    · intro hlen
      obtain ⟨hm', ht'⟩ := hc2 hlen
      rw [hM, hm', hT, ht']
      exact ⟨lookupKV_mapSet_self .., lookupKV_mapSet_self ..⟩

/-- Membership after a path-map insertion. -/
theorem insertPath_mem (l : List String) (p q : String) :
    q ∈ insertPath l p ↔ q ∈ l ∨ q = p := by
  unfold insertPath
  split
  · rename_i hmem
    constructor
    · exact fun h => Or.inl h
    · rintro (h | rfl)
      · exact h
      · exact hmem
  · simp [List.mem_append]

/-- A path-map insertion preserves the absence of duplicate keys. -/
theorem insertPath_nodup (l : List String) (p : String) (h : l.Nodup) :
    (insertPath l p).Nodup := by
  unfold insertPath
  split
  · exact h
  · rename_i hmem
    simp [List.nodup_append, h, hmem]

/-- Collecting an all-string path list succeeds and yields exactly the
accumulated membership plus the listed paths. -/
theorem collectPathList_strs (ps : List String) :
    ∀ acc, ∃ r, collectPathList acc (ps.map Value.str) = .ok r
      ∧ ∀ q, optMem r q ↔ (optMem acc q ∨ q ∈ ps) := by
  induction ps with
  | nil => exact fun acc => ⟨acc, rfl, by simp [optMem]⟩
  | cons p t ih =>
      intro acc
      obtain ⟨r, hr, hmem⟩ := ih (some (insertPath (acc.getD []) p))
      refine ⟨r, ?_, ?_⟩
      · simpa [collectPathList] using hr
      · intro q
        rw [hmem q]
        simp [optMem, insertPath_mem, List.mem_cons, or_assoc]

/-- Collecting the keys of a paths dictionary yields exactly the accumulated
membership plus the dictionary keys. -/
theorem collectPathKeys_mem (es : List (String × Value)) :
    ∀ acc q, optMem (collectPathKeys acc es) q ↔ (optMem acc q ∨ q ∈ es.map Prod.fst) := by
  induction es with
  | nil => intro acc q; simp [collectPathKeys]
  | cons e t ih =>
      intro acc q
      obtain ⟨k, v⟩ := e
      rw [show collectPathKeys acc ((k, v) :: t)
            = collectPathKeys (some (insertPath (acc.getD []) k)) t from rfl]
      rw [ih]
      simp [optMem, insertPath_mem, List.mem_cons, or_assoc]

/-- Path-list collection preserves the absence of duplicate keys. -/
theorem collectPathList_nodup (vs : List Value) :
    ∀ acc r, collectPathList acc vs = .ok r → optNodup acc → optNodup r := by
  induction vs with
  | nil =>
      intro acc r h hn
      injection h with h
      subst h
      exact hn
  | cons v t ih =>
      intro acc r h hn
      cases v with
      | str s =>
          exact ih (some (insertPath (acc.getD []) s)) r h
            (insertPath_nodup _ _ hn)
      | int n => exact absurd h (by simp [collectPathList])
      | int64 n => exact absurd h (by simp [collectPathList])
      | float n => exact absurd h (by simp [collectPathList])
      | jsonNumber n => exact absurd h (by simp [collectPathList])
      | bool b => exact absurd h (by simp [collectPathList])
      | null => exact absurd h (by simp [collectPathList])
      | list l => exact absurd h (by simp [collectPathList])
      | strList l => exact absurd h (by simp [collectPathList])
      | obj l => exact absurd h (by simp [collectPathList])

/-- Path-key collection preserves the absence of duplicate keys. -/
theorem collectPathKeys_nodup (es : List (String × Value)) :
    ∀ acc, optNodup acc → optNodup (collectPathKeys acc es) := by
  induction es with
  | nil => exact fun acc h => h
  | cons e t ih =>
      intro acc h
      obtain ⟨k, v⟩ := e
      exact ih (some (insertPath (acc.getD []) k)) (insertPath_nodup _ _ h)

/-- The composed path collection preserves the absence of duplicate keys. -/
theorem collectAllPaths_nodup {m : Dict} {r : Option (List String)}
    (h : collectAllPaths m = .ok r) : optNodup r := by
  unfold collectAllPaths at h
  cases h1 : pathsTopResult m none with
  | error e => rw [h1] at h; exact absurd h (by simp [Except.bind])
  | ok r1 =>
      rw [h1] at h
      have hr1 : optNodup r1 := by
        unfold pathsTopResult at h1
        split at h1
        · exact collectPathList_nodup _ _ _ h1 (by simp [optNodup])
        · injection h1 with h1; subst h1; simp [optNodup]
      have h2 : pathsAclResult m r1 = .ok r := h
      unfold pathsAclResult at h2
      split at h2
      · split at h2
        · injection h2 with h2; subst h2; exact collectPathKeys_nodup _ _ hr1
        · exact collectPathList_nodup _ _ _ h2 hr1
        · injection h2 with h2; subst h2; exact hr1
      · injection h2 with h2; subst h2; exact hr1

/-- The seeded role list is never empty. -/
theorem seedRoles_ne_nil (rs : List String) : seedRoles rs ≠ [] := by
  unfold seedRoles
  split
  · simp
  · rename_i hlen
    intro h
    exact hlen (by rw [h]; rfl)

/-- When none of the four top-level role keys is present, the top-level role
aggregation is empty. -/
theorem rolesFromKeys_none {m : Dict}
    (h1 : lookupKV m "roles" = none) (h2 : lookupKV m "role" = none)
    (h3 : lookupKV m "groups" = none) (h4 : lookupKV m "group" = none) :
    rolesFromKeys m = .ok [] := by
  unfold rolesFromKeys
  unfold aggFromKeys
  rw [h1]
  unfold aggFromKeys
  rw [h2]
  unfold aggFromKeys
  rw [h3]
  unfold aggFromKeys
  rw [h4]
  rfl

/-- Reading the bool map after a write. -/
theorem lookupB_mapSetB (mm : List (String × Bool)) (k x : String) (v : Bool) :
    lookupB (mapSetB mm k v) x = if k = x then some v else lookupB mm x := by
  induction mm with
  | nil => by_cases h : k = x <;> simp [mapSetB, lookupB, h]
  | cons p t ih =>
      obtain ⟨k', v'⟩ := p
      by_cases h1 : k' = k
      · subst h1
        by_cases h2 : k' = x <;> simp [mapSetB, lookupB, h2]
      · by_cases h2 : k' = x
        · subst h2
          have : k ≠ k' := fun h => h1 h.symm
          simp [mapSetB, h1, lookupB, this]
        · simp [mapSetB, h1, lookupB, h2, ih]

/-- After the first loop of the merge phase, every batch entry is marked
true and all other keys keep their previous value. -/
theorem mergePhase1 (entries : List String) :
    ∀ mm x, lookupB (entries.foldl (fun acc e => mapSetB acc e true) mm) x
      = if x ∈ entries then some true else lookupB mm x := by
  induction entries with
  | nil => intro mm x; simp
  | cons e t ih =>
      intro mm x
      rw [List.foldl_cons, ih]
      by_cases hx : x ∈ t
      · simp [hx, List.mem_cons]
      · rw [lookupB_mapSetB]
        by_cases he : e = x
        · subst he; simp [hx]
        · have : x ≠ e := fun h => he h.symm
          simp [hx, this, he]

/-- After the second loop of the merge phase, keys that are accumulated
links and present in the map are demoted to false. -/
theorem mergePhase2 (links : List String) :
    ∀ mm x, lookupB (links.foldl
        (fun acc l => if (lookupB acc l).isSome then mapSetB acc l false else acc) mm) x
      = if x ∈ links ∧ (lookupB mm x).isSome then some false else lookupB mm x := by
  induction links with
  | nil => intro mm x; simp
  | cons l t ih =>
      intro mm x
      rw [List.foldl_cons, ih]
      by_cases hl : (lookupB mm l).isSome
      · rw [if_pos hl]
        by_cases hx : x ∈ t
        · have hsome : (lookupB (mapSetB mm l false) x).isSome = (lookupB mm x).isSome := by
            rw [lookupB_mapSetB]
            by_cases he : l = x
            · subst he; simp [hl]
            · simp [he]
          rw [hsome]
          by_cases hx2 : (lookupB mm x).isSome
          · simp [hx, hx2, List.mem_cons]
          · simp [hx, hx2, lookupB_mapSetB]
            intro he
            subst he
            exact absurd hl hx2
        · rw [if_neg (by simp [hx]), lookupB_mapSetB]
          by_cases he : l = x
          · subst he
            simp [List.mem_cons, hl]
          · have : x ≠ l := fun h => he h.symm
            simp [he, List.mem_cons, this, hx]
      · rw [if_neg hl]
        by_cases he : l = x
        · subst he
          have hnone : ¬ (lookupB mm l).isSome = true := hl
          simp [hnone]
        · have : x ≠ l := fun h => he h.symm
          simp [List.mem_cons, this]

/-- The third loop of the merge phase appends, in order, exactly the batch
entries still marked true. -/
theorem mergePhase3 (m1 : List (String × Bool)) (entries : List String) :
    ∀ acc, entries.foldl
        (fun a e => if lookupB m1 e = some true then a ++ [e] else a) acc
      = acc ++ entries.filter (fun e => decide (lookupB m1 e = some true)) := by
  induction entries with
  | nil => intro acc; simp
  | cons e t ih =>
      intro acc
      rw [List.foldl_cons]
      by_cases he : lookupB m1 e = some true
      · rw [if_pos he, ih]
        simp [List.filter_cons, he]
      · rw [if_neg he, ih]
        simp [List.filter_cons, he]

/-- The merge of AddFrontendLinks appends, in batch order, exactly the batch
entries not already accumulated, keeping within-batch repetitions. -/
theorem mergeLinks_eq (links entries : List String) :
    mergeLinks links entries
      = links ++ entries.filter (fun e => decide (e ∉ links)) := by
  unfold mergeLinks
  rw [mergePhase3]
  congr 1
  apply List.filter_congr
  intro e he
  rw [mergePhase2, mergePhase1]
  by_cases hl : e ∈ links
  · simp [he, hl]
  · simp [he, hl]

/-- Every checkpoint built by the construction loop carries the id of its
position offset by the starting index. -/
theorem buildCheckpoints_ids (es : List String) :
    ∀ n cs, buildCheckpoints es n = .ok cs →
      cs.length = es.length
      ∧ ∀ i (h : i < cs.length), (cs.get ⟨i, h⟩).id = Int.ofNat (n + i) := by
  induction es with
  | nil =>
      intro n cs h
      injection h with h
      subst h
      simp
  | cons e t ih =>
      intro n cs h
      unfold buildCheckpoints at h
      split at h
      · exact absurd h (by simp)
      · rename_i c heq
        cases hrec : buildCheckpoints t (n + 1) with
        | error e' => rw [hrec] at h; exact absurd h (by simp [Except.map])
        | ok cs' =>
            rw [hrec] at h
            injection h with h
            subst h
            obtain ⟨hlen, hid⟩ := ih (n + 1) cs' hrec
            refine ⟨by simp [hlen], ?_⟩
            intro i hi
            cases i with
            | zero => simp
            | succ j =>
                have hj : j < cs'.length := by
                  simp only [List.length_cons] at hi
                  omega
                have := hid j hj
                simp only [List.get_cons_succ, this]
                congr 1
                omega

/-- A generic link list containing any non-string element is rejected with
the checkpoint invalid type error carrying the whole list. -/
theorem parseLinkList_errs (whole : Value) (xs : List Value) (x : Value)
    (hx : x ∈ xs) (hstr : ∀ s, x ≠ Value.str s) :
    parseLinkList whole xs = .error (Err.errCheckpointInvalidType whole) := by
  induction xs with
  | nil => cases hx
  | cons v t ih =>
      cases v with
      | str s =>
          have hxt : x ∈ t := by
            rcases List.mem_cons.1 hx with h | h
            · exact absurd h (hstr s)
            · exact h
          rw [show parseLinkList whole (Value.str s :: t)
                = (parseLinkList whole t).map (fun r => s :: r) from rfl]
          rw [ih hxt]
          rfl
      | int n => rfl
      | int64 n => rfl
      | float n => rfl
      | jsonNumber n => rfl
      | bool b => rfl
      | null => rfl
      | list l => rfl
      | strList l => rfl
      | obj l => rfl

/-- C1 (amended): Valid succeeds exactly when the current time is at or
before the expiration timestamp; consequently an expiration in the past
fails, one at or after the current time passes, and the zero (unset)
expiration fails whenever the current time is positive, by the same
strict-less-than check. -/
theorem C1_valid_iff (c : Claims) (now : Int) :
    Claims.Valid c now = none ↔ now ≤ c.expiresAt := by
  unfold Claims.Valid
  split <;> rename_i hlt
  · simp only [reduceCtorEq, false_iff]
    omega
  · simp only [true_iff]
    omega

/-- C1 counterexample: a claims record with the zero (unset) expiration
fails validity at the positive current time 1, refuting the claim that a
zero expiration passes. -/
theorem C1_counterexample :
    Claims.Valid {} 1 = some Err.errExpiredToken ∧ Claims.Valid {} 1 ≠ none :=
  ⟨rfl, fun h => Option.noConfusion h⟩

/-- C2 counterexample: a non-string element inside the nested
realm_access.roles list makes NewUser fail with the role element error,
refuting the claim that invalid element types in the nested supplementary
role sources are silently ignored. -/
theorem C2_counterexample :
    NewUser [("realm_access", Value.obj [("roles", Value.list [Value.bool true])])]
      = .error (Err.errInvalidRole (Value.bool true)) := rfl

/-- C2 (amended): a non-string element inside a nested supplementary role
list aborts normalization with the role element error exactly as in the
primary role sources; the leniency of the nested sources is at the
container level instead: a non-dictionary app_metadata or realm_access
entry is silently skipped, and an unrecognized aggregate type of
realm_access.roles is silently skipped, while a non-list
app_metadata.authorization.roles aggregate fails with its own error. -/
theorem C2_nested_role_sources :
    NewUser [("realm_access", Value.obj [("roles", Value.list [Value.bool true])])]
      = .error (Err.errInvalidRole (Value.bool true))
    ∧ NewUser [("app_metadata",
          Value.obj [("authorization", Value.obj [("roles", Value.list [Value.bool true])])])]
      = .error (Err.errInvalidRole (Value.bool true))
    ∧ NewUser [("app_metadata",
          Value.obj [("authorization", Value.obj [("roles", Value.str "admin")])])]
      = .error (Err.errInvalidAppMetadataRoleType (Value.str "admin"))
    ∧ Except.map (fun u => u.claims.roles)
        (NewUser [("realm_access", Value.obj [("roles", Value.str "admin")])])
      = .ok ["anonymous", "guest"]
    ∧ Except.map (fun u => u.claims.roles) (NewUser [("app_metadata", Value.str "x")])
      = .ok ["anonymous", "guest"]
    ∧ Except.map (fun u => u.claims.roles) (NewUser [("realm_access", Value.str "x")])
      = .ok ["anonymous", "guest"]
    ∧ NewUser [("roles", Value.list [Value.bool true])]
      = .error (Err.errInvalidRole (Value.bool true)) :=
  ⟨rfl, rfl, rfl, rfl, rfl, rfl, rfl⟩

/-- C8 counterexample: a badly shaped username produces the very same error
value as a badly shaped metadata entry, refuting the claim that the
username field has its own distinct username-type error. -/
theorem C8_counterexample :
    NewUser [("username", Value.bool true)] = NewUser [("metadata", Value.bool true)]
    ∧ NewUser [("username", Value.bool true)]
        = .error (Err.errInvalidMetadataClaimType (Value.bool true)) :=
  ⟨rfl, rfl⟩

/-- C8 (amended): every recognized field whose value is not one of its
accepted shapes fails with a distinct error naming that field, except the
username field, which reuses the metadata claim type error. -/
theorem C8_field_errors :
    NewUser [("aud", Value.bool true)]
      = .error (Err.errInvalidAudienceType (Value.bool true))
    ∧ NewUser [("exp", Value.str "z")]
      = .error (Err.errInvalidClaimExpiresAt (Value.str "z"))
    ∧ NewUser [("jti", Value.bool true)]
      = .error (Err.errInvalidIDClaimType (Value.bool true))
    ∧ NewUser [("iat", Value.str "z")]
      = .error (Err.errInvalidClaimIssuedAt (Value.str "z"))
    ∧ NewUser [("iss", Value.bool true)]
      = .error (Err.errInvalidIssuerClaimType (Value.bool true))
    ∧ NewUser [("nbf", Value.str "z")]
      = .error (Err.errInvalidClaimNotBefore (Value.str "z"))
    ∧ NewUser [("sub", Value.bool true)]
      = .error (Err.errInvalidSubjectClaimType (Value.bool true))
    ∧ NewUser [("email", Value.bool true)]
      = .error (Err.errInvalidEmailClaimType "email" (Value.bool true))
    ∧ NewUser [("name", Value.bool true)]
      = .error (Err.errInvalidNameClaimType (Value.bool true))
    ∧ NewUser [("roles", Value.bool true)]
      = .error (Err.errInvalidRoleType (Value.bool true))
    ∧ NewUser [("paths", Value.list [Value.bool true])]
      = .error (Err.errInvalidAccessListPath (Value.bool true))
    ∧ NewUser [("origin", Value.bool true)]
      = .error (Err.errInvalidOriginClaimType (Value.bool true))
    ∧ NewUser [("org", Value.bool true)]
      = .error (Err.errInvalidOrgType (Value.bool true))
    ∧ NewUser [("addr", Value.bool true)]
      = .error (Err.errInvalidAddrType (Value.bool true))
    ∧ NewUser [("picture", Value.bool true)]
      = .error (Err.errInvalidPictureClaimType (Value.bool true))
    ∧ NewUser [("metadata", Value.bool true)]
      = .error (Err.errInvalidMetadataClaimType (Value.bool true))
    ∧ NewUser [("username", Value.bool true)]
      = .error (Err.errInvalidMetadataClaimType (Value.bool true)) :=
  ⟨rfl, rfl, rfl, rfl, rfl, rfl, rfl, rfl, rfl, rfl, rfl, rfl, rfl, rfl, rfl, rfl, rfl⟩

/-- C4 counterexample: a new entry repeated within one batch is appended
once per occurrence, refuting the claim that new entries are appended at
most once even if repeated within the same batch. -/
theorem C4_counterexample :
    AddFrontendLinks [] (Value.strList ["x", "x"]) = (none, ["x", "x"])
    ∧ (["x", "x"] : List String) ≠ ["x"] := by
  refine ⟨rfl, ?_⟩
  intro h
  exact absurd (congrArg List.length h) (by decide)

/-- C4 (amended): AddFrontendLinks never duplicates, drops or reorders
already-accumulated entries, appends the batch entries not already
accumulated in their input order, is a no-op on a batch of entries that are
all already accumulated, and adding the batch a, b and then the batch b, c
yields a, b, c; however, a new entry repeated within one batch is appended
once per occurrence. -/
theorem C4_merge :
    (∀ links entries,
        AddFrontendLinks links (Value.strList entries)
          = (none, links ++ entries.filter (fun e => decide (e ∉ links))))
    ∧ (∀ links entries, (∀ e ∈ entries, e ∈ links) →
        AddFrontendLinks links (Value.strList entries) = (none, links))
    ∧ (AddFrontendLinks (AddFrontendLinks [] (Value.strList ["a", "b"])).2
        (Value.strList ["b", "c"])).2 = ["a", "b", "c"] := by
  refine ⟨?_, ?_, rfl⟩
  · intro links entries
    show (none, mergeLinks links entries) = _
    rw [mergeLinks_eq]
  · intro links entries hsub
    show (none, mergeLinks links entries) = _
    rw [mergeLinks_eq]
    have hnil : entries.filter (fun e => decide (e ∉ links)) = [] := by
      rw [List.filter_eq_nil_iff]
      intro a ha
      simp [hsub a ha]
    rw [hnil, List.append_nil]

/-- C4 witness: re-adding a batch whose entries are already accumulated is
a no-op. -/
theorem C4_witness :
    AddFrontendLinks ["a", "b"] (Value.strList ["b"]) = (none, ["a", "b"]) :=
  C4_merge.2.1 ["a", "b"] ["b"] (by decide)

/-- C10: an input of unsupported outer shape, or a generic list holding a
non-string element, makes AddFrontendLinks return an error and leave the
accumulated link list completely unchanged. -/
theorem C10_atomic :
    (∀ links v, isLinkShape v = false →
        AddFrontendLinks links v = (some (Err.errFrontendLinkInvalidType v), links))
    ∧ (∀ links xs x, x ∈ xs → (∀ s, x ≠ Value.str s) →
        AddFrontendLinks links (Value.list xs)
          = (some (Err.errCheckpointInvalidType (Value.list xs)), links)) := by
  constructor
  · intro links v hshape
    cases v with
    | str s => exact absurd hshape (by simp [isLinkShape])
    | strList l => exact absurd hshape (by simp [isLinkShape])
    | list l => exact absurd hshape (by simp [isLinkShape])
    | int n => rfl
    | int64 n => rfl
    | float n => rfl
    | jsonNumber n => rfl
    | bool b => rfl
    | null => rfl
    | obj l => rfl
  · intro links xs x hx hstr
    unfold AddFrontendLinks
    rw [show parseLinkEntries (Value.list xs) = parseLinkList (Value.list xs) xs from rfl]
    rw [parseLinkList_errs _ xs x hx hstr]

/-- C10 witness: a boolean input and a list holding an integer are both
rejected without touching the accumulated links. -/
theorem C10_witness :
    AddFrontendLinks ["a"] (Value.bool true)
      = (some (Err.errFrontendLinkInvalidType (Value.bool true)), ["a"])
    ∧ AddFrontendLinks ["a"] (Value.list [Value.int 1])
      = (some (Err.errCheckpointInvalidType (Value.list [Value.int 1])), ["a"]) :=
  ⟨C10_atomic.1 ["a"] (Value.bool true) rfl,
   C10_atomic.2 ["a"] [Value.int 1] (Value.int 1) (List.mem_singleton.2 rfl)
     (fun _ h => Value.noConfusion h)⟩

/-- C3: when none of the four role keys is present and the nested
supplementary sources contribute no role, the constructed role sequence is
exactly anonymous, guest; both projections hold it under the roles key, the
role index reports both roles, and, in general, the role sequence of any
successfully constructed user is never empty. -/
theorem C3_default_roles :
    (∀ (m : Dict) (u : User),
      lookupKV m "roles" = none → lookupKV m "role" = none →
      lookupKV m "groups" = none → lookupKV m "group" = none →
      appMetadataRoles m = .ok [] → realmAccessRoles m = .ok [] →
      NewUser m = .ok u →
      u.claims.roles = ["anonymous", "guest"]
      ∧ lookupKV u.AsMap "roles" = some (Value.strList ["anonymous", "guest"])
      ∧ lookupKV u.GetData "roles" = some (Value.strList ["anonymous", "guest"])
      ∧ u.HasRole ["anonymous"] = true ∧ u.HasRole ["guest"] = true)
    ∧ (∀ (m : Dict) (u : User), NewUser m = .ok u → u.claims.roles ≠ []) := by
  constructor
  · intro m u h1 h2 h3 h4 happ hrealm hok
    obtain ⟨⟨rs1, rs2, rs3, hrs1, hrs2, hrs3, hroles⟩, hrkv, hmkv, htkv, _, _⟩ :=
      NewUser_ok_master hok
    have e1 : rs1 = [] := by
      rw [rolesFromKeys_none h1 h2 h3 h4] at hrs1
      injection hrs1 with h
      exact h.symm
    have e2 : rs2 = [] := by
      rw [happ] at hrs2
      injection hrs2 with h
      exact h.symm
    have e3 : rs3 = [] := by
      rw [hrealm] at hrs3
      injection hrs3 with h
      exact h.symm
    have hfin : u.claims.roles = ["anonymous", "guest"] := by
      rw [hroles, e1, e2, e3]
      rfl
    refine ⟨hfin, ?_, ?_, ?_, ?_⟩
    · show lookupKV u.mkv "roles" = _
      rw [hmkv, hfin]
    · show lookupKV u.tkv "roles" = _
      rw [htkv, hfin]
    · show (["anonymous"].any fun r => u.rkv.contains r) = true
      rw [hrkv, hfin]
      rfl
    · show (["guest"].any fun r => u.rkv.contains r) = true
      rw [hrkv, hfin]
      rfl
  · intro m u hok
    obtain ⟨⟨rs1, rs2, rs3, _, _, _, hroles⟩, _⟩ := NewUser_ok_master hok
    rw [hroles]
    exact seedRoles_ne_nil _

/-- C3 witness: a dictionary holding only a subject constructs the default
anonymous, guest role sequence, and it is non-empty. -/
theorem C3_witness :
    c3u.claims.roles = ["anonymous", "guest"] ∧ c3u.claims.roles ≠ [] :=
  ⟨(C3_default_roles.1 [("sub", Value.str "alice")] c3u rfl rfl rfl rfl rfl rfl rfl).1,
   C3_default_roles.2 [("sub", Value.str "alice")] c3u rfl⟩

/-- C9: a role key holding the empty string is split into the one-element
sequence holding the empty string, which is non-empty, so the default
anonymous, guest seed is not applied and the constructed user has exactly
the single empty-string role. -/
theorem C9_empty_string_role :
    ∀ (m : Dict) (u : User) (k : String),
      (k = "roles" ∨ k = "role" ∨ k = "groups" ∨ k = "group") →
      lookupKV m k = some (Value.str "") →
      (∀ k', (k' = "roles" ∨ k' = "role" ∨ k' = "groups" ∨ k' = "group") → k' ≠ k →
          lookupKV m k' = none) →
      appMetadataRoles m = .ok [] → realmAccessRoles m = .ok [] →
      NewUser m = .ok u →
      u.claims.roles = [""] ∧ u.claims.roles ≠ []
      ∧ lookupKV u.AsMap "roles" = some (Value.strList [""])
      ∧ lookupKV u.GetData "roles" = some (Value.strList [""])
      ∧ u.HasRole [""] = true := by
  intro m u k hk hval hothers happ hrealm hok
  have hsplit : rolesFromKeys m = .ok [""] := by
    rcases hk with rfl | rfl | rfl | rfl
    · have h2 := hothers "role" (Or.inr (Or.inl rfl)) (by decide)
      have h3 := hothers "groups" (Or.inr (Or.inr (Or.inl rfl))) (by decide)
      have h4 := hothers "group" (Or.inr (Or.inr (Or.inr rfl))) (by decide)
      unfold rolesFromKeys
      unfold aggFromKeys
      rw [hval]
      unfold aggFromKeys
      rw [h2]
      unfold aggFromKeys
      rw [h3]
      unfold aggFromKeys
      rw [h4]
      rfl
    · have h1 := hothers "roles" (Or.inl rfl) (by decide)
      have h3 := hothers "groups" (Or.inr (Or.inr (Or.inl rfl))) (by decide)
      have h4 := hothers "group" (Or.inr (Or.inr (Or.inr rfl))) (by decide)
      unfold rolesFromKeys
      unfold aggFromKeys
      rw [h1]
      unfold aggFromKeys
      rw [hval]
      unfold aggFromKeys
      rw [h3]
      unfold aggFromKeys
      rw [h4]
      rfl
    · have h1 := hothers "roles" (Or.inl rfl) (by decide)
      have h2 := hothers "role" (Or.inr (Or.inl rfl)) (by decide)
      have h4 := hothers "group" (Or.inr (Or.inr (Or.inr rfl))) (by decide)
      unfold rolesFromKeys
      unfold aggFromKeys
      rw [h1]
      unfold aggFromKeys
      rw [h2]
      unfold aggFromKeys
      rw [hval]
      unfold aggFromKeys
      rw [h4]
      rfl
    · have h1 := hothers "roles" (Or.inl rfl) (by decide)
      have h2 := hothers "role" (Or.inr (Or.inl rfl)) (by decide)
      have h3 := hothers "groups" (Or.inr (Or.inr (Or.inl rfl))) (by decide)
      unfold rolesFromKeys
      unfold aggFromKeys
      rw [h1]
      unfold aggFromKeys
      rw [h2]
      unfold aggFromKeys
      rw [h3]
      unfold aggFromKeys
      rw [hval]
      rfl
  obtain ⟨⟨rs1, rs2, rs3, hrs1, hrs2, hrs3, hroles⟩, hrkv, hmkv, htkv, _, _⟩ :=
    NewUser_ok_master hok
  have e1 : rs1 = [""] := by
    rw [hsplit] at hrs1
    injection hrs1 with h
    exact h.symm
  have e2 : rs2 = [] := by
    rw [happ] at hrs2
    injection hrs2 with h
    exact h.symm
  have e3 : rs3 = [] := by
    rw [hrealm] at hrs3
    injection hrs3 with h
    exact h.symm
  have hfin : u.claims.roles = [""] := by
    rw [hroles, e1, e2, e3]
    rfl
  refine ⟨hfin, by rw [hfin]; exact fun h => List.noConfusion h, ?_, ?_, ?_⟩
  · show lookupKV u.mkv "roles" = _
    rw [hmkv, hfin]
  · show lookupKV u.tkv "roles" = _
    rw [htkv, hfin]
  · show ([""].any fun r => u.rkv.contains r) = true
    rw [hrkv, hfin]
    rfl

/-- C9 witness: a dictionary whose only role source is a role key holding
the empty string constructs exactly the single empty-string role. -/
theorem C9_witness :
    c9u.claims.roles = [""] ∧ c9u.claims.roles ≠ [] :=
  have h := C9_empty_string_role [("role", Value.str "")] c9u "role"
    (Or.inr (Or.inl rfl)) rfl
    (by
      intro k' hk' hne
      rcases hk' with rfl | rfl | rfl | rfl
      · rfl
      · exact absurd rfl hne
      · rfl
      · rfl)
    rfl rfl rfl
  ⟨h.1, h.2.1⟩

/-- C5: for a successfully constructed user whose input carries an audience
entry, a validated audience of zero entries is omitted from both
projections, exactly one entry is stored as a bare string in the full
projection and as the one-element list in the reduced projection, and two
or more entries are stored as the full list in both projections. -/
theorem C5_audience_projection :
    ∀ (m : Dict) (u : User) (v : Value) (aud : List String),
      lookupKV m "aud" = some v → audFromValue v = .ok aud →
      NewUser m = .ok u →
      (aud = [] → lookupKV u.AsMap "aud" = none ∧ lookupKV u.GetData "aud" = none)
      ∧ (∀ x, aud = [x] →
          lookupKV u.AsMap "aud" = some (Value.str x)
          ∧ lookupKV u.GetData "aud" = some (Value.strList [x]))
      ∧ (2 ≤ aud.length →
          lookupKV u.AsMap "aud" = some (Value.strList aud)
          ∧ lookupKV u.GetData "aud" = some (Value.strList aud)) :=
  fun _ _ v aud hv hp hok => (NewUser_ok_master hok).2.2.2.2.2 v aud hv hp

/-- C5 witness: a scalar audience entry is stored as a bare string in the
full projection and as a one-element list in the reduced projection. -/
theorem C5_witness :
    lookupKV c5u.AsMap "aud" = some (Value.str "x")
    ∧ lookupKV c5u.GetData "aud" = some (Value.strList ["x"]) :=
  (C5_audience_projection [("aud", Value.str "x")] c5u (Value.str "x") ["x"]
    rfl rfl rfl).2.1 "x" rfl

/-- C6: supplying the same paths as an acl.paths list or as an acl.paths
dictionary yields an identical resulting path set; supplying both a
top-level paths list and an acl.paths list yields the union of the two
sources, with the later source never clearing earlier entries; and the
collected path set of any successfully constructed user is free of
duplicates. -/
theorem C6_path_sources :
    (∀ (m1 m2 : Dict) (u1 u2 : User) (ps : List String),
      lookupKV m1 "paths" = none → lookupKV m2 "paths" = none →
      lookupKV m1 "acl" = some (.obj [("paths", .list (ps.map Value.str))]) →
      lookupKV m2 "acl"
        = some (.obj [("paths", .obj (ps.map (fun p => (p, Value.obj []))))]) →
      NewUser m1 = .ok u1 → NewUser m2 = .ok u2 →
      ∀ q, optMem u1.claims.aclPaths q ↔ optMem u2.claims.aclPaths q)
    ∧ (∀ (m : Dict) (u : User) (ps1 ps2 : List String),
      lookupKV m "paths" = some (.list (ps1.map Value.str)) →
      lookupKV m "acl" = some (.obj [("paths", .list (ps2.map Value.str))]) →
      NewUser m = .ok u →
      ∀ q, optMem u.claims.aclPaths q ↔ (q ∈ ps1 ∨ q ∈ ps2))
    ∧ (∀ (m : Dict) (u : User), NewUser m = .ok u → optNodup u.claims.aclPaths) := by
  refine ⟨?_, ?_, ?_⟩
  · intro m1 m2 u1 u2 ps hp1 hp2 ha1 ha2 ho1 ho2 q
    have hc1 := (NewUser_ok_master ho1).2.2.2.2.1
    have hc2 := (NewUser_ok_master ho2).2.2.2.2.1
    obtain ⟨r, hr, hmem⟩ := collectPathList_strs ps none
    have htop1 : pathsTopResult m1 none = .ok none := by
      unfold pathsTopResult
      rw [hp1]
    have hacl1 : pathsAclResult m1 none = .ok r := by
      unfold pathsAclResult
      rw [ha1]
      exact hr
    have hall1 : collectAllPaths m1 = .ok r := by
      unfold collectAllPaths
      rw [htop1]
      exact hacl1
    rw [hall1] at hc1
    injection hc1 with hc1
    have htop2 : pathsTopResult m2 none = .ok none := by
      unfold pathsTopResult
      rw [hp2]
    have hacl2 : pathsAclResult m2 none
        = .ok (collectPathKeys none (ps.map (fun p => (p, Value.obj [])))) := by
      unfold pathsAclResult
      rw [ha2]
      rfl
    have hall2 : collectAllPaths m2
        = .ok (collectPathKeys none (ps.map (fun p => (p, Value.obj [])))) := by
      unfold collectAllPaths
      rw [htop2]
      exact hacl2
    rw [hall2] at hc2
    injection hc2 with hc2
    rw [← hc1, ← hc2, hmem q, collectPathKeys_mem]
    simp [optMem, List.map_map, Function.comp]
  · intro m u ps1 ps2 hp ha hok q
    have hc := (NewUser_ok_master hok).2.2.2.2.1
    obtain ⟨r1, hr1, hmem1⟩ := collectPathList_strs ps1 none
    obtain ⟨r2, hr2, hmem2⟩ := collectPathList_strs ps2 r1
    have htop : pathsTopResult m none = .ok r1 := by
      unfold pathsTopResult
      rw [hp]
      exact hr1
    have hacl : pathsAclResult m r1 = .ok r2 := by
      unfold pathsAclResult
      rw [ha]
      exact hr2
    have hall : collectAllPaths m = .ok r2 := by
      unfold collectAllPaths
      rw [htop]
      exact hacl
    rw [hall] at hc
    injection hc with hc
    rw [← hc, hmem2 q, hmem1 q]
    simp [optMem]
  · intro m u hok
    exact collectAllPaths_nodup (NewUser_ok_master hok).2.2.2.2.1

/-- C6 witness: a top-level path and an acl path merge into the union path
set of the constructed user. -/
theorem C6_witness :
    optMem c6u.claims.aclPaths "/b" ↔ ("/b" ∈ ["/a"] ∨ "/b" ∈ (["/b"] : List String)) :=
  C6_path_sources.2.1
    [("paths", Value.list [Value.str "/a"]),
     ("acl", Value.obj [("paths", Value.list [Value.str "/b"])])]
    c6u ["/a"] ["/b"] rfl rfl rfl "/b"

/-- C7: the directive require mfa parses to the single multi-factor
authentication checkpoint with sequence id zero; an unrecognized argument,
a wrong argument count, and an unsupported keyword each fail with an error
wrapping the offending entry; an input yielding no checkpoint fails with
the empty-checkpoint error; and successfully built checkpoints carry
zero-based sequence ids matching their input positions. -/
theorem C7_checkpoints :
    NewCheckpoints (Value.str "require mfa")
      = .ok [{ id := 0, name := "Multi-factor authentication", type := "mfa",
               parameters := "", passed := false, failedAttempts := 0 }]
    ∧ NewCheckpoints (Value.str "require otp")
      = .error (Err.errCheckpointInvalidInput "require otp"
          (Err.errUnsupportedRequireKeyword "otp"))
    ∧ NewCheckpoints (Value.str "require")
      = .error (Err.errCheckpointInvalidInput "require" Err.errMustContainTwoKeywords)
    ∧ NewCheckpoints (Value.str "forbid mfa")
      = .error (Err.errCheckpointInvalidInput "forbid mfa"
          (Err.errUnsupportedKeyword "forbid"))
    ∧ NewCheckpoints (Value.strList []) = .error Err.errCheckpointEmpty
    ∧ NewCheckpoints (Value.list []) = .error Err.errCheckpointEmpty
    ∧ (∀ (es : List String) (cps : List Checkpoint),
        NewCheckpoints (Value.strList es) = .ok cps →
        cps.length = es.length
        ∧ ∀ i (h : i < cps.length), (cps.get ⟨i, h⟩).id = Int.ofNat i) := by
  refine ⟨rfl, rfl, rfl, rfl, rfl, rfl, ?_⟩
  intro es cps h
  unfold NewCheckpoints at h
  split at h
  · rename_i e heq
    exact absurd heq (by simp [checkpointEntries])
  · rename_i entries heq
    rw [show checkpointEntries (Value.strList es) = Except.ok es from rfl] at heq
    injection heq with heq
    subst heq
    split at h
    · exact absurd h (by simp)
    · rename_i cs heq2
      split at h
      · exact absurd h (by simp)
      · injection h with h
        subst h
        obtain ⟨hlen, hid⟩ := buildCheckpoints_ids es 0 cs heq2
        refine ⟨hlen, ?_⟩
        intro i hi
        have := hid i hi
        simpa using this

/-- C7 witness: two require-mfa directives yield two checkpoints whose
sequence ids are their zero-based input positions. -/
theorem C7_witness :
    c7list.length = (["require mfa", "require mfa"] : List String).length
    ∧ (c7list.get ⟨1, by decide⟩).id = Int.ofNat 1 := by
  have h := C7_checkpoints.2.2.2.2.2.2 ["require mfa", "require mfa"] c7list rfl
  exact ⟨h.1, h.2 1 (by decide)⟩

end UserClaims
